import Mathlib

/-!
Shallow embedding of the twilight in-memory cache slice covering emoji and
integration reconciliation (src/cache/in-memory/src/event/emoji.rs,
src/cache/in-memory/src/event/integration.rs, src/cache/in-memory/src/config.rs).

Concurrent maps (DashMap) are embedded as total functions from keys to
Option values; HashSet becomes Finset.  Each Rust method becomes a pure
state-transformer on CacheState.
-/

abbrev GuildId := Nat
abbrev EmojiId := Nat
abbrev UserId := Nat
abbrev IntegrationId := Nat
abbrev RoleId := Nat

/-- A user record (twilight_model user; only the fields the cache slice needs:
the stable id plus a representative payload field). -/
structure User where
  id : UserId
  name : String
deriving DecidableEq

/-- Incoming emoji payload (twilight_model guild::Emoji), as consumed by
cache_emoji: id, animated, name, managed, require_colons, roles, optional
embedded user, available. -/
structure Emoji where
  id : EmojiId
  animated : Bool
  name : String
  managed : Bool
  require_colons : Bool
  roles : List RoleId
  user : Option User
  available : Bool
deriving DecidableEq

/-- Cached emoji record (model::CachedEmoji): the embedded user is reduced to
an optional user id, per the construction at emoji.rs lines 66-75. -/
structure CachedEmoji where
  id : EmojiId
  animated : Bool
  name : String
  managed : Bool
  require_colons : Bool
  roles : List RoleId
  user_id : Option UserId
  available : Bool
deriving DecidableEq

/-- The CachedEmoji built from an Emoji exactly as in cache_emoji
(emoji.rs lines 60, 66-75): every payload field is copied and the embedded
user collapses to its id.  The structural-equality guard at line 56
(cached_emoji.data == emoji) compares precisely these fields, so it is
embedded as equality with this record. -/
def Emoji.toCached (e : Emoji) : CachedEmoji :=
  ⟨e.id, e.animated, e.name, e.managed, e.require_colons, e.roles,
    e.user.map User.id, e.available⟩

/-- A stored guild-owned item (crate GuildItem): the entity plus the owner
back-reference. -/
structure GuildItem (α : Type) where
  data : α
  guild_id : GuildId
deriving DecidableEq

/-- Integration payload (twilight_model guild::GuildIntegration): the stable
id, the optional owning guild id, and a representative payload field. -/
structure GuildIntegration where
  id : IntegrationId
  guild_id : Option GuildId
  name : String
deriving DecidableEq

/-- GuildEmojisUpdate gateway payload: the complete emoji list for a guild. -/
structure GuildEmojisUpdate where
  emojis : List Emoji
  guild_id : GuildId

/-- IntegrationCreate gateway payload: a newtype around GuildIntegration. -/
abbrev IntegrationCreate := GuildIntegration

/-- IntegrationUpdate gateway payload: a newtype around GuildIntegration. -/
abbrev IntegrationUpdate := GuildIntegration

/-- IntegrationDelete gateway payload: guild id and integration id. -/
structure IntegrationDelete where
  guild_id : GuildId
  id : IntegrationId

namespace ResourceType

/-- Bit constants of config.rs (bitflags ResourceType). -/
def CHANNEL : Nat := 1
def EMOJI : Nat := 2
def GUILD : Nat := 4
def MEMBER : Nat := 8
def MESSAGE : Nat := 16
def PRESENCE : Nat := 32
def REACTION : Nat := 64
def ROLE : Nat := 128
def USER_CURRENT : Nat := 256
def USER : Nat := 512
def VOICE_STATE : Nat := 1024
def STAGE_INSTANCE : Nat := 2048
def INTEGRATION : Nat := 4096

/-- All thirteen bits set, the default configuration. -/
def all : Nat := 8191

end ResourceType

/-- The cache state: one map per category touched by this slice, the
relationship indexes, and the configuration fields of config.rs. -/
@[ext]
structure CacheState where
  emojis : EmojiId → Option (GuildItem CachedEmoji)
  guildEmojis : GuildId → Option (Finset EmojiId)
  users : UserId → Option User
  integrations : GuildId × IntegrationId → Option (GuildItem GuildIntegration)
  guildIntegrations : GuildId → Option (Finset IntegrationId)
  resourceTypes : Nat
  messageCacheSize : Nat

/-- Pointwise update of a map embedded as a function. -/
def updF {α β : Type} [DecidableEq α] (m : α → Option β) (k : α) (v : Option β) :
    α → Option β :=
  fun x => if x = k then v else m x

/-- Modelled from the spec: the mask gate wants(category), true when every bit
of the category constant is set in the configured resource_types (bitflags
contains semantics over the constants of config.rs). -/
def wants (s : CacheState) (r : Nat) : Bool :=
  s.resourceTypes &&& r == r

/-- Modelled from the spec: upsert_guild_item (crate root, not under src).
Per spec section 4.2, if an existing value is structurally equal to the
incoming entity no write occurs; otherwise the stored value is replaced by
the entity wrapped with the owner back-reference. -/
def upsertGuildItem {κ α : Type} [DecidableEq κ] [DecidableEq α]
    (m : κ → Option (GuildItem α)) (g : GuildId) (k : κ) (v : α) :
    κ → Option (GuildItem α) :=
  match m k with
  | some item => if item.data = v then m else updF m k (some ⟨v, g⟩)
  | none => updF m k (some ⟨v, g⟩)

/-- Modelled from the spec: cache_user (crate root, not under src).  Per spec
section 4.4 (b), the nested sub-entity is upserted into the user category
store; equal values cause no write. -/
def cache_user (m : UserId → Option User) (u : User) : UserId → Option User :=
  match m u.id with
  | some w => if w = u then m else updF m u.id (some u)
  | none => updF m u.id (some u)

/-- First phase of cache_emoji on the write path (emoji.rs lines 60-64):
cache the embedded user, when present, into the user store. -/
def cache_emoji_user_step (s : CacheState) (e : Emoji) : CacheState :=
  match e.user with
  | some u => { s with users := cache_user s.users u }
  | none => s

/-- Second phase of cache_emoji on the write path (emoji.rs lines 66-83):
insert the cached record into the emoji store under the owner. -/
def cache_emoji_store_step (s : CacheState) (g : GuildId) (e : Emoji) : CacheState :=
  { s with emojis := updF s.emojis e.id (some ⟨e.toCached, g⟩) }

/-- Third phase of cache_emoji on the write path (emoji.rs lines 85-89):
add the emoji id to the owning guild index entry, creating it when absent. -/
def cache_emoji_index_step (s : CacheState) (g : GuildId) (e : Emoji) : CacheState :=
  { s with
    guildEmojis :=
      updF s.guildEmojis g (some (insert e.id ((s.guildEmojis g).getD ∅))) }

/-- Write path of cache_emoji (emoji.rs lines 60-89): user step, store step,
index step in source order. -/
def cache_emoji_write (s : CacheState) (g : GuildId) (e : Emoji) : CacheState :=
  cache_emoji_index_step (cache_emoji_store_step (cache_emoji_user_step s e) g e) g e

/-- cache_emoji (emoji.rs lines 54-90): early return when the cached data is
structurally equal to the incoming emoji, otherwise the write path. -/
def cache_emoji (s : CacheState) (g : GuildId) (e : Emoji) : CacheState :=
  match s.emojis e.id with
  | some cached =>
      if cached.data = e.toCached then s
      else cache_emoji_write s g e
  | none => cache_emoji_write s g e

/-- Removal phase of cache_emojis (emoji.rs lines 31-47): when the guild has
an index entry, ids not in the incoming list are removed from the index set
and then from the emoji store; without an entry nothing is removed. -/
def removal_phase (s : CacheState) (guild_id : GuildId) (emojis : List Emoji) :
    CacheState :=
  match s.guildEmojis guild_id with
  | some guild_emojis =>
      { s with
        guildEmojis := updF s.guildEmojis guild_id
          (some (guild_emojis.filter (fun e => e ∈ emojis.map Emoji.id))),
        emojis := fun k =>
          if k ∈ guild_emojis.filter (fun e => e ∉ emojis.map Emoji.id) then none
          else s.emojis k }
  | none => s

/-- cache_emojis (emoji.rs lines 30-52): removal phase, then cache_emoji for
each incoming emoji in order. -/
def cache_emojis (s : CacheState) (guild_id : GuildId) (emojis : List Emoji) :
    CacheState :=
  emojis.foldl (fun st e => cache_emoji st guild_id e) (removal_phase s guild_id emojis)

/-- Accessor emoji (emoji.rs lines 15-17): snapshot of the cached data. -/
def emoji (s : CacheState) (emoji_id : EmojiId) : Option CachedEmoji :=
  (s.emojis emoji_id).map GuildItem.data

/-- Accessor guild_emojis (emoji.rs lines 26-28): snapshot of the guild index
entry. -/
def guild_emojis (s : CacheState) (guild_id : GuildId) : Option (Finset EmojiId) :=
  s.guildEmojis guild_id

/-- UpdateCache for GuildEmojisUpdate (emoji.rs lines 93-101): mask gate then
cache_emojis. -/
def updateGuildEmojisUpdate (s : CacheState) (ev : GuildEmojisUpdate) : CacheState :=
  if wants s ResourceType.EMOJI then cache_emojis s ev.guild_id ev.emojis else s

/-- First phase of cache_integration (integration.rs lines 10-14): add the
integration id to the owning guild index entry, creating it when absent. -/
def cache_integration_index_step (s : CacheState) (g : GuildId)
    (integration : GuildIntegration) : CacheState :=
  { s with
    guildIntegrations :=
      updF s.guildIntegrations g
        (some (insert integration.id ((s.guildIntegrations g).getD ∅))) }

/-- Second phase of cache_integration (integration.rs lines 16-21): upsert the
integration into the store keyed by guild id and integration id. -/
def cache_integration_store_step (s : CacheState) (g : GuildId)
    (integration : GuildIntegration) : CacheState :=
  { s with
    integrations :=
      upsertGuildItem s.integrations g (g, integration.id) integration }

/-- cache_integration (integration.rs lines 9-22): index step first, then
store step, in source order. -/
def cache_integration (s : CacheState) (g : GuildId)
    (integration : GuildIntegration) : CacheState :=
  cache_integration_store_step (cache_integration_index_step s g integration) g integration

/-- delete_integration (integration.rs lines 24-35): remove from the store
and, only when something was removed, erase the id from the guild index entry
when that entry exists. -/
def delete_integration (s : CacheState) (guild_id : GuildId)
    (integration_id : IntegrationId) : CacheState :=
  match s.integrations (guild_id, integration_id) with
  | some _ =>
      let s1 := { s with integrations := updF s.integrations (guild_id, integration_id) none }
      match s1.guildIntegrations guild_id with
      | some integrations =>
          { s1 with
            guildIntegrations :=
              updF s1.guildIntegrations guild_id
                (some (integrations.erase integration_id)) }
      | none => s1
  | none => s

/-- UpdateCache for IntegrationCreate (integration.rs lines 38-53): mask gate,
then, when the payload carries a guild id, a bare store upsert.  Note the
guild index is never touched here. -/
def updateIntegrationCreate (s : CacheState) (ev : IntegrationCreate) : CacheState :=
  if wants s ResourceType.INTEGRATION then
    match ev.guild_id with
    | some g => { s with integrations := upsertGuildItem s.integrations g (g, ev.id) ev }
    | none => s
  else s

/-- UpdateCache for IntegrationUpdate (integration.rs lines 65-75): mask gate,
then cache_integration when the payload carries a guild id. -/
def updateIntegrationUpdate (s : CacheState) (ev : IntegrationUpdate) : CacheState :=
  if wants s ResourceType.INTEGRATION then
    match ev.guild_id with
    | some g => cache_integration s g ev
    | none => s
  else s

/-- UpdateCache for IntegrationDelete (integration.rs lines 55-63): mask gate,
then delete_integration. -/
def updateIntegrationDelete (s : CacheState) (ev : IntegrationDelete) : CacheState :=
  if wants s ResourceType.INTEGRATION then
    delete_integration s ev.guild_id ev.id
  else s

/-- Invariant I2 for the emoji category: every stored emoji has its id in the
index entry of its owner. -/
def emojiI2 (s : CacheState) : Prop :=
  ∀ k gi, s.emojis k = some gi →
    ∃ X, s.guildEmojis gi.guild_id = some X ∧ k ∈ X

/-- Invariant I2 for the integration category: every stored integration has
its id in the index entry of the guild component of its key. -/
def integrationI2 (s : CacheState) : Prop :=
  ∀ g i gi, s.integrations (g, i) = some gi →
    ∃ X, s.guildIntegrations g = some X ∧ i ∈ X

/-- The empty cache with the given resource mask. -/
def emptyCache (mask : Nat) : CacheState :=
  ⟨fun _ => none, fun _ => none, fun _ => none, fun _ => none, fun _ => none,
    mask, 100⟩

/-- A plain emoji payload with the given id and name, no roles and no
embedded user. -/
def mkEmoji (i : EmojiId) (nm : String) : Emoji :=
  ⟨i, false, nm, false, true, [], none, true⟩

/-- Concrete integration payload owned by guild 1, used for the
IntegrationCreate evaluation. -/
def intgC1 : GuildIntegration := ⟨2, some 1, "itg"⟩

/-- Concrete state for the ordering refutation: a fully enabled empty cache. -/
def sC2 : CacheState := emptyCache ResourceType.all

/-- Concrete emoji for the ordering refutation. -/
def eC2 : Emoji := mkEmoji 5 "a"

/-- Concrete integration for the ordering refutation. -/
def itC2 : GuildIntegration := ⟨2, some 1, "itg"⟩

/-- Intermediate state of cache_emoji on the write path, after the store step
and before the index step. -/
def midC2 : CacheState := cache_emoji_store_step (cache_emoji_user_step sC2 eC2) 1 eC2

/-- Intermediate state of cache_integration, after the index step and before
the store step. -/
def midIC2 : CacheState := cache_integration_index_step sC2 1 itC2

/-- Concrete emoji for the full-set refutation. -/
def eC3 : Emoji := mkEmoji 5 "a"

/-- Concrete state for the full-set refutation: emoji 5 is cached with data
equal to eC3 but owned and indexed by guild 2. -/
def s0C3 : CacheState :=
  { emptyCache ResourceType.all with
    emojis := updF (fun _ => none) 5 (some ⟨eC3.toCached, 2⟩),
    guildEmojis := updF (fun _ => none) 2 (some {5}) }

/-- Concrete state for the full-set witness: guild 1 owns emojis 1, 2, 3. -/
def s0C3w : CacheState :=
  { emptyCache ResourceType.all with
    emojis := fun k =>
      if k = 1 then some ⟨(mkEmoji 1 "a").toCached, 1⟩
      else if k = 2 then some ⟨(mkEmoji 2 "b").toCached, 1⟩
      else if k = 3 then some ⟨(mkEmoji 3 "c").toCached, 1⟩
      else none,
    guildEmojis := updF (fun _ => none) 1 (some {1, 2, 3}) }

/-- Incoming list for the full-set witness: ids 2, 3, 4 replacing 1, 2, 3. -/
def eListC3w : List Emoji := [mkEmoji 2 "b", mkEmoji 3 "c", mkEmoji 4 "d"]

/-- Concrete user for the idempotence refutation. -/
def uC5 : User := ⟨7, "u"⟩

/-- Emoji 5 carrying the embedded user uC5. -/
def e1C5 : Emoji := ⟨5, false, "a", false, true, [], some uC5, true⟩

/-- Emoji 5 with a different name and no user. -/
def e2C5 : Emoji := mkEmoji 5 "b"

/-- Concrete state for the idempotence refutation: emoji 5 cached with data
equal to e1C5, user store empty. -/
def s0C5 : CacheState :=
  { emptyCache ResourceType.all with
    emojis := updF (fun _ => none) 5 (some ⟨e1C5.toCached, 1⟩) }

/-- Payload with a duplicated emoji id for the idempotence refutation. -/
def evC5 : GuildEmojisUpdate := ⟨[e1C5, e2C5], 1⟩

/-- Concrete state for the idempotence witness: emoji 9 cached with data equal
to mkEmoji 9 z. -/
def sC5w : CacheState :=
  { emptyCache ResourceType.all with
    emojis := updF (fun _ => none) 9 (some ⟨(mkEmoji 9 "z").toCached, 4⟩) }

/-- Concrete state for the empty-replacement witness: guild 1 owns emojis
1 and 2. -/
def sC6w : CacheState :=
  { emptyCache ResourceType.all with
    emojis := fun k =>
      if k = 1 then some ⟨(mkEmoji 1 "a").toCached, 1⟩
      else if k = 2 then some ⟨(mkEmoji 2 "b").toCached, 1⟩
      else none,
    guildEmojis := updF (fun _ => none) 1 (some {1, 2}) }

/-- Concrete state for the delete witness: integration 2 of guild 1 is cached
and indexed. -/
def sC7w : CacheState :=
  { emptyCache ResourceType.all with
    integrations := updF (fun _ => none) (1, 2) (some ⟨⟨2, some 1, "itg"⟩, 1⟩),
    guildIntegrations := updF (fun _ => none) 1 (some {2}) }

/-- Concrete emoji with an embedded user for the nested-user witness. -/
def eC8 : Emoji := ⟨5, false, "a", false, true, [], some ⟨7, "u"⟩, true⟩

/-- Concrete emoji with an embedded user for the no-op witness. -/
def eC9 : Emoji := ⟨5, false, "a", false, true, [], some ⟨7, "u"⟩, true⟩

/-- Concrete state for the no-op witness: emoji 5 cached with data equal to
eC9 but owned by guild 2; the embedded user is not cached. -/
def sC9 : CacheState :=
  { emptyCache ResourceType.all with
    emojis := updF (fun _ => none) 5 (some ⟨eC9.toCached, 2⟩) }

/-! Helper lemmas about the map primitive and the cache_emoji phases. -/

@[simp]
theorem updF_same {α β : Type} [DecidableEq α] (m : α → Option β) (k : α) (v : Option β) :
    updF m k v k = v := by
  simp [updF]

theorem updF_ne {α β : Type} [DecidableEq α] (m : α → Option β) {k x : α} (v : Option β)
    (h : x ≠ k) : updF m k v x = m x := by
  simp [updF, h]

@[simp]
theorem cache_emoji_user_step_emojis (s : CacheState) (e : Emoji) :
    (cache_emoji_user_step s e).emojis = s.emojis := by
  unfold cache_emoji_user_step; cases e.user <;> rfl

@[simp]
theorem cache_emoji_user_step_guildEmojis (s : CacheState) (e : Emoji) :
    (cache_emoji_user_step s e).guildEmojis = s.guildEmojis := by
  unfold cache_emoji_user_step; cases e.user <;> rfl

@[simp]
theorem cache_emoji_user_step_integrations (s : CacheState) (e : Emoji) :
    (cache_emoji_user_step s e).integrations = s.integrations := by
  unfold cache_emoji_user_step; cases e.user <;> rfl

@[simp]
theorem cache_emoji_user_step_guildIntegrations (s : CacheState) (e : Emoji) :
    (cache_emoji_user_step s e).guildIntegrations = s.guildIntegrations := by
  unfold cache_emoji_user_step; cases e.user <;> rfl

@[simp]
theorem cache_emoji_user_step_resourceTypes (s : CacheState) (e : Emoji) :
    (cache_emoji_user_step s e).resourceTypes = s.resourceTypes := by
  unfold cache_emoji_user_step; cases e.user <;> rfl

@[simp]
theorem cache_emoji_user_step_messageCacheSize (s : CacheState) (e : Emoji) :
    (cache_emoji_user_step s e).messageCacheSize = s.messageCacheSize := by
  unfold cache_emoji_user_step; cases e.user <;> rfl

@[simp]
theorem cache_emoji_write_emojis (s : CacheState) (g : GuildId) (e : Emoji) :
    (cache_emoji_write s g e).emojis = updF s.emojis e.id (some ⟨e.toCached, g⟩) := by
  simp [cache_emoji_write, cache_emoji_index_step, cache_emoji_store_step]

@[simp]
theorem cache_emoji_write_guildEmojis (s : CacheState) (g : GuildId) (e : Emoji) :
    (cache_emoji_write s g e).guildEmojis =
      updF s.guildEmojis g (some (insert e.id ((s.guildEmojis g).getD ∅))) := by
  simp [cache_emoji_write, cache_emoji_index_step, cache_emoji_store_step]

@[simp]
theorem cache_emoji_write_integrations (s : CacheState) (g : GuildId) (e : Emoji) :
    (cache_emoji_write s g e).integrations = s.integrations := by
  simp [cache_emoji_write, cache_emoji_index_step, cache_emoji_store_step]

@[simp]
theorem cache_emoji_write_guildIntegrations (s : CacheState) (g : GuildId) (e : Emoji) :
    (cache_emoji_write s g e).guildIntegrations = s.guildIntegrations := by
  simp [cache_emoji_write, cache_emoji_index_step, cache_emoji_store_step]

@[simp]
theorem cache_emoji_write_resourceTypes (s : CacheState) (g : GuildId) (e : Emoji) :
    (cache_emoji_write s g e).resourceTypes = s.resourceTypes := by
  simp [cache_emoji_write, cache_emoji_index_step, cache_emoji_store_step]

@[simp]
theorem cache_emoji_write_messageCacheSize (s : CacheState) (g : GuildId) (e : Emoji) :
    (cache_emoji_write s g e).messageCacheSize = s.messageCacheSize := by
  simp [cache_emoji_write, cache_emoji_index_step, cache_emoji_store_step]

theorem cache_emoji_of_eq {s : CacheState} (g : GuildId) {e : Emoji} {c : GuildItem CachedEmoji}
    (h : s.emojis e.id = some c) (hd : c.data = e.toCached) :
    cache_emoji s g e = s := by
  unfold cache_emoji; rw [h]; simp [hd]

theorem cache_emoji_of_ne {s : CacheState} (g : GuildId) {e : Emoji}
    (h : ∀ c, s.emojis e.id = some c → c.data ≠ e.toCached) :
    cache_emoji s g e = cache_emoji_write s g e := by
  unfold cache_emoji
  rcases hh : s.emojis e.id with _ | c
  · rfl
  · simp [h c hh]

theorem cache_emoji_cases (s : CacheState) (g : GuildId) (e : Emoji) :
    (∃ c, s.emojis e.id = some c ∧ c.data = e.toCached ∧ cache_emoji s g e = s) ∨
    ((∀ c, s.emojis e.id = some c → c.data ≠ e.toCached) ∧
      cache_emoji s g e = cache_emoji_write s g e) := by
  by_cases h : ∃ c, s.emojis e.id = some c ∧ c.data = e.toCached
  · obtain ⟨c, hc, hd⟩ := h
    exact Or.inl ⟨c, hc, hd, cache_emoji_of_eq g hc hd⟩
  · push_neg at h
    exact Or.inr ⟨h, cache_emoji_of_ne g h⟩

theorem cache_emoji_integrations (s : CacheState) (g : GuildId) (e : Emoji) :
    (cache_emoji s g e).integrations = s.integrations := by
  rcases cache_emoji_cases s g e with ⟨c, _, _, heq⟩ | ⟨_, heq⟩ <;> rw [heq] <;> simp

theorem cache_emoji_guildIntegrations (s : CacheState) (g : GuildId) (e : Emoji) :
    (cache_emoji s g e).guildIntegrations = s.guildIntegrations := by
  rcases cache_emoji_cases s g e with ⟨c, _, _, heq⟩ | ⟨_, heq⟩ <;> rw [heq] <;> simp

theorem cache_emoji_resourceTypes (s : CacheState) (g : GuildId) (e : Emoji) :
    (cache_emoji s g e).resourceTypes = s.resourceTypes := by
  rcases cache_emoji_cases s g e with ⟨c, _, _, heq⟩ | ⟨_, heq⟩ <;> rw [heq] <;> simp

theorem cache_emoji_messageCacheSize (s : CacheState) (g : GuildId) (e : Emoji) :
    (cache_emoji s g e).messageCacheSize = s.messageCacheSize := by
  rcases cache_emoji_cases s g e with ⟨c, _, _, heq⟩ | ⟨_, heq⟩ <;> rw [heq] <;> simp

theorem cache_emoji_emojis_ne (s : CacheState) (g : GuildId) (e : Emoji) {k : EmojiId}
    (h : k ≠ e.id) : (cache_emoji s g e).emojis k = s.emojis k := by
  rcases cache_emoji_cases s g e with ⟨c, _, _, heq⟩ | ⟨_, heq⟩ <;>
    rw [heq] <;> simp [updF_ne _ _ h]

theorem cache_emoji_guildEmojis_ne (s : CacheState) (g : GuildId) (e : Emoji) {g' : GuildId}
    (h : g' ≠ g) : (cache_emoji s g e).guildEmojis g' = s.guildEmojis g' := by
  rcases cache_emoji_cases s g e with ⟨c, _, _, heq⟩ | ⟨_, heq⟩ <;>
    rw [heq] <;> simp [updF_ne _ _ h]

theorem cache_emoji_emojis_at (s : CacheState) (g : GuildId) (e : Emoji) :
    ∃ c, (cache_emoji s g e).emojis e.id = some c ∧ c.data = e.toCached := by
  rcases cache_emoji_cases s g e with ⟨c, hc, hd, heq⟩ | ⟨_, heq⟩ <;> rw [heq]
  · exact ⟨c, hc, hd⟩
  · exact ⟨⟨e.toCached, g⟩, by simp, rfl⟩

theorem cache_emoji_guildEmojis_at (s : CacheState) (g : GuildId) (e : Emoji) :
    (cache_emoji s g e).guildEmojis g = s.guildEmojis g ∨
    (cache_emoji s g e).guildEmojis g =
      some (insert e.id ((s.guildEmojis g).getD ∅)) := by
  rcases cache_emoji_cases s g e with ⟨c, _, _, heq⟩ | ⟨_, heq⟩ <;> rw [heq]
  · exact Or.inl rfl
  · exact Or.inr (by simp)

/-! Lemmas about the fold of cache_emoji over an incoming list. -/

theorem foldCE_integrations (L : List Emoji) (g : GuildId) :
    ∀ t : CacheState,
      (L.foldl (fun st e => cache_emoji st g e) t).integrations = t.integrations := by
  induction L with
  | nil => intro t; rfl
  | cons e L ih => intro t; rw [List.foldl_cons, ih, cache_emoji_integrations]

theorem foldCE_guildIntegrations (L : List Emoji) (g : GuildId) :
    ∀ t : CacheState,
      (L.foldl (fun st e => cache_emoji st g e) t).guildIntegrations =
        t.guildIntegrations := by
  induction L with
  | nil => intro t; rfl
  | cons e L ih => intro t; rw [List.foldl_cons, ih, cache_emoji_guildIntegrations]

theorem foldCE_resourceTypes (L : List Emoji) (g : GuildId) :
    ∀ t : CacheState,
      (L.foldl (fun st e => cache_emoji st g e) t).resourceTypes = t.resourceTypes := by
  induction L with
  | nil => intro t; rfl
  | cons e L ih => intro t; rw [List.foldl_cons, ih, cache_emoji_resourceTypes]

theorem foldCE_messageCacheSize (L : List Emoji) (g : GuildId) :
    ∀ t : CacheState,
      (L.foldl (fun st e => cache_emoji st g e) t).messageCacheSize =
        t.messageCacheSize := by
  induction L with
  | nil => intro t; rfl
  | cons e L ih => intro t; rw [List.foldl_cons, ih, cache_emoji_messageCacheSize]

theorem foldCE_emojis_ne (L : List Emoji) (g : GuildId) {k : EmojiId}
    (h : k ∉ L.map Emoji.id) :
    ∀ t : CacheState,
      (L.foldl (fun st e => cache_emoji st g e) t).emojis k = t.emojis k := by
  induction L with
  | nil => intro t; rfl
  | cons e L ih =>
      intro t
      simp only [List.map_cons, List.mem_cons, not_or] at h
      rw [List.foldl_cons, ih h.2, cache_emoji_emojis_ne t g e h.1]

theorem foldCE_guildEmojis_ne (L : List Emoji) (g : GuildId) {g' : GuildId} (h : g' ≠ g) :
    ∀ t : CacheState,
      (L.foldl (fun st e => cache_emoji st g e) t).guildEmojis g' =
        t.guildEmojis g' := by
  induction L with
  | nil => intro t; rfl
  | cons e L ih =>
      intro t
      rw [List.foldl_cons, ih, cache_emoji_guildEmojis_ne t g e h]

theorem foldCE_skip_id (L : List Emoji) (g : GuildId) :
    ∀ t : CacheState,
      (∀ e ∈ L, ∃ c, t.emojis e.id = some c ∧ c.data = e.toCached) →
      L.foldl (fun st e => cache_emoji st g e) t = t := by
  induction L with
  | nil => intro t _; rfl
  | cons e L ih =>
      intro t h
      obtain ⟨c, hc, hd⟩ := h e (List.mem_cons_self e L)
      rw [List.foldl_cons, cache_emoji_of_eq g hc hd]
      exact ih t (fun e' he' => h e' (List.mem_cons_of_mem e he'))

theorem foldCE_store_data (L : List Emoji) (g : GuildId)
    (hnd : (L.map Emoji.id).Nodup) :
    ∀ t : CacheState, ∀ e ∈ L,
      ∃ c, (L.foldl (fun st e => cache_emoji st g e) t).emojis e.id = some c ∧
        c.data = e.toCached := by
  induction L with
  | nil => intro t e he; cases he
  | cons e L ih =>
      intro t e' he'
      simp only [List.map_cons, List.nodup_cons] at hnd
      rcases List.mem_cons.mp he' with rfl | hmem
      · rw [List.foldl_cons, foldCE_emojis_ne L g hnd.1]
        exact cache_emoji_emojis_at t g e'
      · rw [List.foldl_cons]
        exact ih hnd.2 (cache_emoji t g e) e' hmem

theorem foldCE_index_mem (L : List Emoji) (g : GuildId) :
    ∀ t : CacheState, ∀ Y : Finset EmojiId, ∀ k : EmojiId,
      (L.foldl (fun st e => cache_emoji st g e) t).guildEmojis g = some Y → k ∈ Y →
      k ∈ L.map Emoji.id ∨ ∃ X, t.guildEmojis g = some X ∧ k ∈ X := by
  induction L with
  | nil => intro t Y k hY hk; exact Or.inr ⟨Y, hY, hk⟩
  | cons e L ih =>
      intro t Y k hY hk
      rw [List.foldl_cons] at hY
      rcases ih (cache_emoji t g e) Y k hY hk with hmem | ⟨X, hX, hkX⟩
      · exact Or.inl (by simp only [List.map_cons, List.mem_cons]; exact Or.inr hmem)
      · rcases cache_emoji_guildEmojis_at t g e with hsame | hins
        · rw [hsame] at hX
          exact Or.inr ⟨X, hX, hkX⟩
        · rw [hins] at hX
          obtain rfl : insert e.id ((t.guildEmojis g).getD ∅) = X := Option.some_inj.mp hX
          rcases Finset.mem_insert.mp hkX with rfl | hkD
          · exact Or.inl (by simp)
          · rcases ht : t.guildEmojis g with _ | X0
            · rw [ht] at hkD; simp at hkD
            · rw [ht] at hkD; exact Or.inr ⟨X0, rfl, hkD⟩

theorem foldCE_main (L : List Emoji) (g : GuildId) :
    ∀ (t : CacheState) (X : Finset EmojiId),
      t.guildEmojis g = some X →
      (∀ e ∈ L, ∀ c, t.emojis e.id = some c → c.data = e.toCached → e.id ∈ X) →
      (L.foldl (fun st e => cache_emoji st g e) t).guildEmojis g =
        some (X ∪ (L.map Emoji.id).toFinset) ∧
      (∀ e ∈ L, ((L.foldl (fun st e => cache_emoji st g e) t).emojis e.id).isSome) := by
  induction L with
  | nil =>
      intro t X hX _
      refine ⟨by simpa using hX, ?_⟩
      intro e he; cases he
  | cons e L ih =>
      intro t X hX hcond
      rcases cache_emoji_cases t g e with ⟨c, hc, hd, heq⟩ | ⟨hne, heq⟩
      · have heX : e.id ∈ X := hcond e (List.mem_cons_self e L) c hc hd
        have hrest := ih t X hX (fun e' he' => hcond e' (List.mem_cons_of_mem e he'))
        rw [List.foldl_cons, heq]
        constructor
        · rw [hrest.1]
          congr 1
          simp only [List.map_cons, List.toFinset_cons]
          rw [Finset.union_insert,
            Finset.insert_eq_self.mpr (Finset.mem_union_left _ heX)]
        · intro e' he'
          rcases List.mem_cons.mp he' with rfl | hmem
          · by_cases hin : e'.id ∈ L.map Emoji.id
            · obtain ⟨a, ha, hid⟩ := List.mem_map.mp hin
              have := hrest.2 a ha
              rw [hid] at this
              exact this
            · rw [foldCE_emojis_ne L g hin, hc]
              rfl
          · exact hrest.2 e' hmem
      · have ht' : (cache_emoji_write t g e).guildEmojis g = some (insert e.id X) := by
          rw [cache_emoji_write_guildEmojis, updF_same, hX]
          rfl
        have hcond' : ∀ e' ∈ L, ∀ c, (cache_emoji_write t g e).emojis e'.id = some c →
            c.data = e'.toCached → e'.id ∈ insert e.id X := by
          intro e' he' c hc' hd'
          by_cases hid : e'.id = e.id
          · rw [hid]; exact Finset.mem_insert_self _ _
          · rw [cache_emoji_write_emojis, updF_ne _ _ hid] at hc'
            exact Finset.mem_insert_of_mem
              (hcond e' (List.mem_cons_of_mem e he') c hc' hd')
        have hrest := ih (cache_emoji_write t g e) (insert e.id X) ht' hcond'
        rw [List.foldl_cons, heq]
        constructor
        · rw [hrest.1]
          congr 1
          simp only [List.map_cons, List.toFinset_cons]
          rw [Finset.insert_union, Finset.union_insert]
        · intro e' he'
          rcases List.mem_cons.mp he' with rfl | hmem
          · by_cases hin : e'.id ∈ L.map Emoji.id
            · obtain ⟨a, ha, hid⟩ := List.mem_map.mp hin
              have := hrest.2 a ha
              rw [hid] at this
              exact this
            · rw [foldCE_emojis_ne L g hin, cache_emoji_write_emojis, updF_same]
              rfl
          · exact hrest.2 e' hmem

/-! Lemmas about the removal phase and cache_emojis. -/

theorem removal_phase_of_none {s : CacheState} {g : GuildId} (E : List Emoji)
    (h : s.guildEmojis g = none) : removal_phase s g E = s := by
  unfold removal_phase; rw [h]

theorem removal_phase_of_some {s : CacheState} {g : GuildId} {ge : Finset EmojiId}
    (E : List Emoji) (h : s.guildEmojis g = some ge) :
    removal_phase s g E =
      { s with
        guildEmojis := updF s.guildEmojis g
          (some (ge.filter (fun x => x ∈ E.map Emoji.id))),
        emojis := fun k =>
          if k ∈ ge.filter (fun x => x ∉ E.map Emoji.id) then none
          else s.emojis k } := by
  unfold removal_phase; rw [h]

theorem removal_phase_resourceTypes (s : CacheState) (g : GuildId) (E : List Emoji) :
    (removal_phase s g E).resourceTypes = s.resourceTypes := by
  unfold removal_phase
  rcases s.guildEmojis g with _ | ge <;> rfl

theorem cache_emojis_unfold (s : CacheState) (g : GuildId) (E : List Emoji) :
    cache_emojis s g E =
      E.foldl (fun st e => cache_emoji st g e) (removal_phase s g E) := rfl

theorem cache_emojis_resourceTypes (s : CacheState) (g : GuildId) (E : List Emoji) :
    (cache_emojis s g E).resourceTypes = s.resourceTypes := by
  rw [cache_emojis_unfold, foldCE_resourceTypes, removal_phase_resourceTypes]

theorem cache_emojis_idem {s : CacheState} {g : GuildId} {E : List Emoji}
    (hnd : (E.map Emoji.id).Nodup) :
    cache_emojis (cache_emojis s g E) g E = cache_emojis s g E := by
  have hdata : ∀ e ∈ E, ∃ c, (cache_emojis s g E).emojis e.id = some c ∧
      c.data = e.toCached := by
    rw [cache_emojis_unfold]
    exact foldCE_store_data E g hnd (removal_phase s g E)
  rcases h1 : (cache_emojis s g E).guildEmojis g with _ | ge1
  · rw [cache_emojis_unfold (cache_emojis s g E), removal_phase_of_none E h1]
    exact foldCE_skip_id E g (cache_emojis s g E) hdata
  · have hsub : ∀ k ∈ ge1, k ∈ E.map Emoji.id := by
      intro k hk
      rw [cache_emojis_unfold] at h1
      rcases foldCE_index_mem E g (removal_phase s g E) ge1 k h1 hk with hmem | ⟨X, hX, hkX⟩
      · exact hmem
      · rcases h0 : s.guildEmojis g with _ | ge
        · rw [removal_phase_of_none E h0, h0] at hX; cases hX
        · rw [removal_phase_of_some E h0] at hX
          change updF s.guildEmojis g _ g = some X at hX
          rw [updF_same] at hX
          obtain rfl := Option.some_inj.mp hX
          exact (Finset.mem_filter.mp hkX).2
    have hrp : removal_phase (cache_emojis s g E) g E = cache_emojis s g E := by
      rw [removal_phase_of_some E h1]
      ext1
      · funext k
        change (if k ∈ ge1.filter (fun x => x ∉ E.map Emoji.id) then none
          else (cache_emojis s g E).emojis k) = _
        rw [if_neg]
        intro hkf
        exact (Finset.mem_filter.mp hkf).2 (hsub k (Finset.mem_filter.mp hkf).1)
      · funext x
        change updF (cache_emojis s g E).guildEmojis g _ x = _
        by_cases hx : x = g
        · subst hx
          rw [updF_same, h1, Finset.filter_true_of_mem hsub]
        · rw [updF_ne _ _ hx]
      · rfl
      · rfl
      · rfl
      · rfl
      · rfl
    rw [cache_emojis_unfold (cache_emojis s g E), hrp]
    exact foldCE_skip_id E g (cache_emojis s g E) hdata

/-! Lemmas about cache_user and the integration operations. -/

theorem cache_user_self (m : UserId → Option User) (u : User) :
    cache_user m u u.id = some u := by
  unfold cache_user
  rcases h : m u.id with _ | w
  · simp
  · by_cases hw : w = u
    · simp [hw, h]
    · simp [hw]

theorem cache_integration_index_step_integrations (s : CacheState) (g : GuildId)
    (it : GuildIntegration) :
    (cache_integration_index_step s g it).integrations = s.integrations := rfl

theorem cache_integration_index_step_guildIntegrations_at (s : CacheState) (g : GuildId)
    (it : GuildIntegration) :
    (cache_integration_index_step s g it).guildIntegrations g =
      some (insert it.id ((s.guildIntegrations g).getD ∅)) := by
  change updF s.guildIntegrations g _ g = _
  rw [updF_same]

/-! Claim theorems. -/

/-- C1: the spec requires invariant I2 (every stored owned entity is indexed
under its owner) after every completed event application, and in particular
that IntegrationCreate with a present guild id re-establishes it.  The code
violates this: UpdateCache for IntegrationCreate upserts the integration
store but never adds the id to guild_integrations, so from the empty cache
(which satisfies I2) the resulting state stores integration (1, 2) while
guild 1 has no index entry at all. -/
theorem C1_integration_create_breaks_I2 :
    integrationI2 (emptyCache ResourceType.all) ∧
    (updateIntegrationCreate (emptyCache ResourceType.all) intgC1).integrations (1, 2) =
      some ⟨intgC1, 1⟩ ∧
    (updateIntegrationCreate (emptyCache ResourceType.all) intgC1).guildIntegrations 1 =
      none ∧
    ¬ integrationI2 (updateIntegrationCreate (emptyCache ResourceType.all) intgC1) := by
  refine ⟨?_, by decide, by decide, ?_⟩
  · intro g i gi h
    simp [emptyCache] at h
  · intro hI2
    obtain ⟨X, hX, _⟩ := hI2 1 2 ⟨intgC1, 1⟩ (by decide)
    have hnone : (updateIntegrationCreate (emptyCache ResourceType.all)
        intgC1).guildIntegrations 1 = none := by decide
    rw [hnone] at hX
    cases hX

/-- C2 counterexample: the claim asserts that in every caching operation the
Entity Store upsert precedes the Relationship Index add and that no
intermediate state contains a stored entity missing from the owner index.
Both parts fail on the code: the intermediate state of cache_emoji after its
store step (midC2) stores emoji 5 while guild 1 has no index entry, violating
I2 mid-operation; and cache_integration performs its index add strictly
before its store upsert, as midIC2 shows (id 2 indexed, store still empty). -/
theorem C2_counterexample :
    cache_emoji sC2 1 eC2 = cache_emoji_index_step midC2 1 eC2 ∧
    midC2.emojis 5 = some ⟨eC2.toCached, 1⟩ ∧
    midC2.guildEmojis 1 = none ∧
    ¬ emojiI2 midC2 ∧
    emojiI2 sC2 ∧
    cache_integration sC2 1 itC2 = cache_integration_store_step midIC2 1 itC2 ∧
    midIC2.integrations (1, 2) = none ∧
    midIC2.guildIntegrations 1 = some {2} := by
  refine ⟨rfl, by decide, by decide, ?_, ?_, rfl, by decide, by decide⟩
  · intro hI2
    obtain ⟨X, hX, _⟩ := hI2 5 ⟨eC2.toCached, 1⟩ (by decide)
    have hnone : midC2.guildEmojis 1 = none := by decide
    rw [hnone] at hX
    cases hX
  · intro k gi h
    simp [sC2, emptyCache] at h

/-- C2 corrected: on the write path cache_emoji performs the store insert
strictly before the index add (after the store step the entity is stored and
the guild index is still untouched), while cache_integration performs the
index add strictly before the store upsert (after the index step the id is
indexed and the store is still untouched). -/
theorem C2_ordering_amended :
    (∀ (s : CacheState) (g : GuildId) (e : Emoji),
      (∀ c, s.emojis e.id = some c → c.data ≠ e.toCached) →
      cache_emoji s g e =
        cache_emoji_index_step (cache_emoji_store_step (cache_emoji_user_step s e) g e)
          g e ∧
      (cache_emoji_store_step (cache_emoji_user_step s e) g e).emojis e.id =
        some ⟨e.toCached, g⟩ ∧
      (cache_emoji_store_step (cache_emoji_user_step s e) g e).guildEmojis =
        s.guildEmojis) ∧
    (∀ (s : CacheState) (g : GuildId) (it : GuildIntegration),
      cache_integration s g it =
        cache_integration_store_step (cache_integration_index_step s g it) g it ∧
      (cache_integration_index_step s g it).integrations = s.integrations ∧
      it.id ∈ ((cache_integration_index_step s g it).guildIntegrations g).getD ∅) := by
  constructor
  · intro s g e hne
    refine ⟨cache_emoji_of_ne g hne, ?_, ?_⟩
    · change updF (cache_emoji_user_step s e).emojis e.id (some ⟨e.toCached, g⟩) e.id = _
      rw [updF_same]
    · change (cache_emoji_user_step s e).guildEmojis = s.guildEmojis
      rw [cache_emoji_user_step_guildEmojis]
  · intro s g it
    refine ⟨rfl, rfl, ?_⟩
    rw [cache_integration_index_step_guildIntegrations_at]
    exact Finset.mem_insert_self _ _

/-- Witness for the corrected C2 theorem at concrete inputs. -/
theorem C2_ordering_amended_witness :
    (cache_emoji (emptyCache ResourceType.all) 1 (mkEmoji 6 "w") =
      cache_emoji_index_step
        (cache_emoji_store_step
          (cache_emoji_user_step (emptyCache ResourceType.all) (mkEmoji 6 "w")) 1
          (mkEmoji 6 "w")) 1 (mkEmoji 6 "w") ∧
      (cache_emoji_store_step
        (cache_emoji_user_step (emptyCache ResourceType.all) (mkEmoji 6 "w")) 1
        (mkEmoji 6 "w")).emojis (mkEmoji 6 "w").id =
        some ⟨(mkEmoji 6 "w").toCached, 1⟩ ∧
      (cache_emoji_store_step
        (cache_emoji_user_step (emptyCache ResourceType.all) (mkEmoji 6 "w")) 1
        (mkEmoji 6 "w")).guildEmojis = (emptyCache ResourceType.all).guildEmojis) ∧
    (cache_integration (emptyCache ResourceType.all) 1 ⟨3, some 1, "x"⟩ =
      cache_integration_store_step
        (cache_integration_index_step (emptyCache ResourceType.all) 1 ⟨3, some 1, "x"⟩)
        1 ⟨3, some 1, "x"⟩ ∧
      (cache_integration_index_step (emptyCache ResourceType.all) 1
        ⟨3, some 1, "x"⟩).integrations = (emptyCache ResourceType.all).integrations ∧
      (⟨3, some 1, "x"⟩ : GuildIntegration).id ∈
        ((cache_integration_index_step (emptyCache ResourceType.all) 1
          ⟨3, some 1, "x"⟩).guildIntegrations 1).getD ∅) :=
  ⟨C2_ordering_amended.1 (emptyCache ResourceType.all) 1 (mkEmoji 6 "w")
      (fun c hc => by simp [emptyCache] at hc),
    C2_ordering_amended.2 (emptyCache ResourceType.all) 1 ⟨3, some 1, "x"⟩⟩

/-- C4: with a category mask bit cleared, applying any event of that category
(GuildEmojisUpdate for EMOJI; IntegrationCreate, IntegrationUpdate,
IntegrationDelete for INTEGRATION) leaves the entire cache state unchanged,
including every store, index and the user sub-entity store. -/
theorem C4_mask_gate_noop :
    (∀ (s : CacheState) (ev : GuildEmojisUpdate),
      wants s ResourceType.EMOJI = false → updateGuildEmojisUpdate s ev = s) ∧
    (∀ (s : CacheState) (ev : IntegrationCreate),
      wants s ResourceType.INTEGRATION = false → updateIntegrationCreate s ev = s) ∧
    (∀ (s : CacheState) (ev : IntegrationUpdate),
      wants s ResourceType.INTEGRATION = false → updateIntegrationUpdate s ev = s) ∧
    (∀ (s : CacheState) (ev : IntegrationDelete),
      wants s ResourceType.INTEGRATION = false → updateIntegrationDelete s ev = s) := by
  refine ⟨?_, ?_, ?_, ?_⟩ <;> intro s ev h <;>
    simp [updateGuildEmojisUpdate, updateIntegrationCreate, updateIntegrationUpdate,
      updateIntegrationDelete, h]

/-- Witness for C4 at the all-bits-cleared mask. -/
theorem C4_mask_gate_noop_witness :
    wants (emptyCache 0) ResourceType.EMOJI = false ∧
    wants (emptyCache 0) ResourceType.INTEGRATION = false ∧
    updateGuildEmojisUpdate (emptyCache 0) ⟨[mkEmoji 1 "a"], 1⟩ = emptyCache 0 ∧
    updateIntegrationCreate (emptyCache 0) ⟨2, some 1, "b"⟩ = emptyCache 0 ∧
    updateIntegrationUpdate (emptyCache 0) ⟨2, some 1, "b"⟩ = emptyCache 0 ∧
    updateIntegrationDelete (emptyCache 0) ⟨1, 2⟩ = emptyCache 0 :=
  ⟨by decide, by decide,
    C4_mask_gate_noop.1 _ _ (by decide),
    C4_mask_gate_noop.2.1 _ _ (by decide),
    C4_mask_gate_noop.2.2.1 _ _ (by decide),
    C4_mask_gate_noop.2.2.2 _ _ (by decide)⟩

/-- C7: applying IntegrationDelete for a key absent from the integrations
store is a total no-op: the whole state, in particular the integrations store
and the guild_integrations index, is exactly as before. -/
theorem C7_delete_nonexistent_noop (s : CacheState) (g : GuildId) (i : IntegrationId)
    (h : s.integrations (g, i) = none) :
    updateIntegrationDelete s ⟨g, i⟩ = s := by
  have hdef : updateIntegrationDelete s ⟨g, i⟩ =
      if wants s ResourceType.INTEGRATION = true then delete_integration s g i else s := rfl
  rw [hdef]
  by_cases hw : wants s ResourceType.INTEGRATION = true
  · rw [if_pos hw]
    unfold delete_integration
    rw [h]
  · rw [if_neg hw]

/-- Witness for C7: deleting integration 3 of guild 1, which is not cached,
leaves a state that does cache integration 2 untouched. -/
theorem C7_delete_nonexistent_noop_witness :
    sC7w.integrations (1, 3) = none ∧
    updateIntegrationDelete sC7w ⟨1, 3⟩ = sC7w :=
  ⟨by decide, C7_delete_nonexistent_noop sC7w 1 3 (by decide)⟩

/-- C8: when the incoming emoji carries an embedded user and the equality
guard does not fire, cache_emoji upserts that user into the user store and
the cached emoji record holds only the user id (user_id field), never the
embedded user value. -/
theorem C8_nested_user (s : CacheState) (g : GuildId) (e : Emoji) (u : User)
    (hu : e.user = some u)
    (hne : ∀ c, s.emojis e.id = some c → c.data ≠ e.toCached) :
    (cache_emoji s g e).users u.id = some u ∧
    (cache_emoji s g e).emojis e.id = some ⟨e.toCached, g⟩ ∧
    e.toCached.user_id = some u.id := by
  rw [cache_emoji_of_ne g hne]
  refine ⟨?_, ?_, ?_⟩
  · change (cache_emoji_user_step s e).users u.id = some u
    unfold cache_emoji_user_step
    rw [hu]
    exact cache_user_self s.users u
  · rw [cache_emoji_write_emojis, updF_same]
  · simp [Emoji.toCached, hu]

/-- Witness for C8: caching emoji 5 with embedded user 7 into the empty
cache stores the user and records only its id. -/
theorem C8_nested_user_witness :
    eC8.user = some ⟨7, "u"⟩ ∧
    ((cache_emoji (emptyCache ResourceType.all) 1 eC8).users 7 = some ⟨7, "u"⟩ ∧
      (cache_emoji (emptyCache ResourceType.all) 1 eC8).emojis 5 =
        some ⟨eC8.toCached, 1⟩ ∧
      eC8.toCached.user_id = some 7) :=
  ⟨by decide,
    C8_nested_user (emptyCache ResourceType.all) 1 eC8 ⟨7, "u"⟩ (by decide)
      (fun c hc => by simp [emptyCache] at hc)⟩

/-- C9: when the cached data for the incoming id is structurally equal to the
incoming emoji, cache_emoji returns the state unchanged: no owner
back-reference update, no index extension, no user caching. -/
theorem C9_equal_data_noop (s : CacheState) (g : GuildId) (e : Emoji)
    (c : GuildItem CachedEmoji) (h : s.emojis e.id = some c)
    (hd : c.data = e.toCached) :
    cache_emoji s g e = s :=
  cache_emoji_of_eq g h hd

/-- Witness for C9: emoji 5 is cached with equal data but owner 2, the
incoming event targets guild 1 and carries an uncached user, and the state is
returned entirely unchanged. -/
theorem C9_equal_data_noop_witness :
    sC9.emojis eC9.id = some ⟨eC9.toCached, 2⟩ ∧
    (⟨eC9.toCached, 2⟩ : GuildItem CachedEmoji).guild_id ≠ 1 ∧
    eC9.user = some ⟨7, "u"⟩ ∧
    sC9.users 7 = none ∧
    sC9.guildEmojis 1 = none ∧
    cache_emoji sC9 1 eC9 = sC9 :=
  ⟨by decide, by decide, by decide, by decide, by decide,
    C9_equal_data_noop sC9 1 eC9 ⟨eC9.toCached, 2⟩ (by decide) rfl⟩

/-- C10: when a guild has no guild_emojis entry, a GuildEmojisUpdate with an
empty list leaves the whole state unchanged; in particular guild_emojis still
returns none, not an empty set, and the emoji store is untouched. -/
theorem C10_no_entry_empty_update (s : CacheState) (g : GuildId)
    (h : s.guildEmojis g = none) :
    updateGuildEmojisUpdate s ⟨[], g⟩ = s ∧
    guild_emojis (updateGuildEmojisUpdate s ⟨[], g⟩) g = none := by
  have hmain : updateGuildEmojisUpdate s ⟨[], g⟩ = s := by
    have hdef : updateGuildEmojisUpdate s ⟨[], g⟩ =
        if wants s ResourceType.EMOJI = true then cache_emojis s g [] else s := rfl
    rw [hdef]
    by_cases hw : wants s ResourceType.EMOJI = true
    · rw [if_pos hw, cache_emojis_unfold, removal_phase_of_none [] h]
      rfl
    · rw [if_neg hw]
  refine ⟨hmain, ?_⟩
  rw [hmain]
  exact h

/-- Witness for C10 on the fully enabled empty cache and guild 2. -/
theorem C10_no_entry_empty_update_witness :
    (emptyCache ResourceType.all).guildEmojis 2 = none ∧
    (updateGuildEmojisUpdate (emptyCache ResourceType.all) ⟨[], 2⟩ =
        emptyCache ResourceType.all ∧
      guild_emojis (updateGuildEmojisUpdate (emptyCache ResourceType.all) ⟨[], 2⟩) 2 =
        none) :=
  ⟨rfl, C10_no_entry_empty_update (emptyCache ResourceType.all) 2 rfl⟩

/-- C6 counterexample: the claim says an empty full-set replacement always
leaves the index entry present but empty.  For a guild with no entry (guild 3
on the fully enabled empty cache) the code leaves the state unchanged and the
entry absent, not present-but-empty. -/
theorem C6_counterexample :
    (emptyCache ResourceType.all).guildEmojis 3 = none ∧
    updateGuildEmojisUpdate (emptyCache ResourceType.all) ⟨[], 3⟩ =
      emptyCache ResourceType.all ∧
    (updateGuildEmojisUpdate (emptyCache ResourceType.all) ⟨[], 3⟩).guildEmojis 3 =
      none := by
  refine ⟨rfl, ?_, by decide⟩
  have hdef : updateGuildEmojisUpdate (emptyCache ResourceType.all) ⟨[], 3⟩ =
      if wants (emptyCache ResourceType.all) ResourceType.EMOJI = true then
        cache_emojis (emptyCache ResourceType.all) 3 [] else emptyCache ResourceType.all := rfl
  rw [hdef, if_pos (by decide), cache_emojis_unfold, removal_phase_of_none [] rfl]
  rfl

/-- C6 corrected: for a guild that does have a guild_emojis entry and with the
EMOJI bit enabled, an empty full-set replacement leaves the entry present but
empty, removes every previously indexed emoji of that guild from the store,
and preserves I2, so no orphaned emoji entity is introduced anywhere. -/
theorem C6_empty_replacement_amended (s : CacheState) (g : GuildId)
    (ge : Finset EmojiId) (hw : wants s ResourceType.EMOJI = true)
    (hge : s.guildEmojis g = some ge) :
    (updateGuildEmojisUpdate s ⟨[], g⟩).guildEmojis g = some ∅ ∧
    (∀ x ∈ ge, (updateGuildEmojisUpdate s ⟨[], g⟩).emojis x = none) ∧
    (emojiI2 s → emojiI2 (updateGuildEmojisUpdate s ⟨[], g⟩)) := by
  have hupd : updateGuildEmojisUpdate s ⟨[], g⟩ = removal_phase s g [] := by
    have hdef : updateGuildEmojisUpdate s ⟨[], g⟩ =
        if wants s ResourceType.EMOJI = true then cache_emojis s g [] else s := rfl
    rw [hdef, if_pos hw, cache_emojis_unfold]
    rfl
  rw [hupd, removal_phase_of_some [] hge]
  refine ⟨?_, ?_, ?_⟩
  · change updF s.guildEmojis g (some (ge.filter _)) g = some ∅
    rw [updF_same]
    congr 1
    simp
  · intro x hx
    change (if x ∈ ge.filter (fun y => y ∉ ([] : List Emoji).map Emoji.id) then none
      else s.emojis x) = none
    rw [if_pos (Finset.mem_filter.mpr ⟨hx, by simp⟩)]
  · intro hI2 k gi hk
    change (if k ∈ ge.filter (fun y => y ∉ ([] : List Emoji).map Emoji.id) then none
      else s.emojis k) = some gi at hk
    by_cases hkf : k ∈ ge.filter (fun y => y ∉ ([] : List Emoji).map Emoji.id)
    · rw [if_pos hkf] at hk; cases hk
    · rw [if_neg hkf] at hk
      obtain ⟨X, hX, hmem⟩ := hI2 k gi hk
      by_cases hgi : gi.guild_id = g
      · rw [hgi, hge] at hX
        obtain rfl := Option.some_inj.mp hX
        exact absurd (Finset.mem_filter.mpr ⟨hmem, by simp⟩) hkf
      · refine ⟨X, ?_, hmem⟩
        change updF s.guildEmojis g (some (ge.filter _)) gi.guild_id = some X
        rw [updF_ne _ _ hgi]
        exact hX

/-- Witness for the corrected C6 theorem: guild 1 owns emojis 1 and 2 and the
empty replacement empties its entry and store. -/
theorem C6_empty_replacement_amended_witness :
    (updateGuildEmojisUpdate sC6w ⟨[], 1⟩).guildEmojis 1 = some ∅ ∧
    (∀ x ∈ ({1, 2} : Finset EmojiId),
      (updateGuildEmojisUpdate sC6w ⟨[], 1⟩).emojis x = none) ∧
    (emojiI2 sC6w → emojiI2 (updateGuildEmojisUpdate sC6w ⟨[], 1⟩)) :=
  C6_empty_replacement_amended sC6w 1 {1, 2} (by decide) (by decide)

/-- C3 counterexample: the claim says that after any GuildEmojisUpdate the
guild index equals exactly the incoming id set.  When emoji 5 is cached with
structurally equal data but owned and indexed by guild 2, the update for
guild 1 containing that emoji is skipped entirely by the equality guard:
the state is unchanged and guild 1 gets no index entry at all instead of
the id set of the incoming list. -/
theorem C3_counterexample :
    s0C3.guildEmojis 1 = none ∧
    eC3.id ∈ [eC3].map Emoji.id ∧
    updateGuildEmojisUpdate s0C3 ⟨[eC3], 1⟩ = s0C3 ∧
    (updateGuildEmojisUpdate s0C3 ⟨[eC3], 1⟩).guildEmojis 1 = none := by
  refine ⟨by decide, by decide, ?_, by decide⟩
  have hdef : updateGuildEmojisUpdate s0C3 ⟨[eC3], 1⟩ =
      if wants s0C3 ResourceType.EMOJI = true then cache_emojis s0C3 1 [eC3]
      else s0C3 := rfl
  rw [hdef, if_pos (by decide), cache_emojis_unfold,
    removal_phase_of_none [eC3] (by decide)]
  show cache_emoji s0C3 1 eC3 = s0C3
  exact @cache_emoji_of_eq s0C3 1 eC3 ⟨eC3.toCached, 2⟩ (by decide) rfl

/-- C3 corrected: with the EMOJI bit enabled, an existing index entry for the
guild, and the proviso that every incoming emoji whose id is cached with
structurally equal data is already indexed under this guild, the full-set
replacement makes the guild index equal exactly the set of incoming ids,
stores every incoming id, and removes every previously indexed id not in the
incoming list from both index and store. -/
theorem C3_full_set_amended (s : CacheState) (g : GuildId) (E : List Emoji)
    (ge : Finset EmojiId) (hw : wants s ResourceType.EMOJI = true)
    (hge : s.guildEmojis g = some ge)
    (hskip : ∀ e ∈ E, ∀ c, s.emojis e.id = some c → c.data = e.toCached →
      e.id ∈ ge) :
    (updateGuildEmojisUpdate s ⟨E, g⟩).guildEmojis g =
      some (E.map Emoji.id).toFinset ∧
    (∀ e ∈ E, ((updateGuildEmojisUpdate s ⟨E, g⟩).emojis e.id).isSome) ∧
    (∀ x ∈ ge, x ∉ E.map Emoji.id →
      (updateGuildEmojisUpdate s ⟨E, g⟩).emojis x = none ∧
      ∀ Y, (updateGuildEmojisUpdate s ⟨E, g⟩).guildEmojis g = some Y → x ∉ Y) := by
  have hupd : updateGuildEmojisUpdate s ⟨E, g⟩ =
      E.foldl (fun st e => cache_emoji st g e) (removal_phase s g E) := by
    have hdef : updateGuildEmojisUpdate s ⟨E, g⟩ =
        if wants s ResourceType.EMOJI = true then cache_emojis s g E else s := rfl
    rw [hdef, if_pos hw, cache_emojis_unfold]
  have ht0ge : (removal_phase s g E).guildEmojis g =
      some (ge.filter (fun x => x ∈ E.map Emoji.id)) := by
    rw [removal_phase_of_some E hge]
    change updF s.guildEmojis g _ g = _
    rw [updF_same]
  have ht0cond : ∀ e ∈ E, ∀ c, (removal_phase s g E).emojis e.id = some c →
      c.data = e.toCached → e.id ∈ ge.filter (fun x => x ∈ E.map Emoji.id) := by
    intro e he c hc hd
    rw [removal_phase_of_some E hge] at hc
    change (if e.id ∈ ge.filter (fun y => y ∉ E.map Emoji.id) then none
      else s.emojis e.id) = some c at hc
    by_cases hf : e.id ∈ ge.filter (fun y => y ∉ E.map Emoji.id)
    · rw [if_pos hf] at hc; cases hc
    · rw [if_neg hf] at hc
      exact Finset.mem_filter.mpr
        ⟨hskip e he c hc hd, List.mem_map.mpr ⟨e, he, rfl⟩⟩
  have hmain := foldCE_main E g (removal_phase s g E) _ ht0ge ht0cond
  have hsubset : ge.filter (fun x => x ∈ E.map Emoji.id) ⊆
      (E.map Emoji.id).toFinset := by
    intro x hx
    exact List.mem_toFinset.mpr (Finset.mem_filter.mp hx).2
  refine ⟨?_, ?_, ?_⟩
  · rw [hupd, hmain.1]
    congr 1
    exact Finset.union_eq_right.mpr hsubset
  · intro e he
    rw [hupd]
    exact hmain.2 e he
  · intro x hx hnx
    constructor
    · rw [hupd, foldCE_emojis_ne E g hnx, removal_phase_of_some E hge]
      change (if x ∈ ge.filter (fun y => y ∉ E.map Emoji.id) then none
        else s.emojis x) = none
      rw [if_pos (Finset.mem_filter.mpr ⟨hx, hnx⟩)]
    · intro Y hY
      rw [hupd, hmain.1] at hY
      obtain rfl := Option.some_inj.mp hY
      intro hxY
      rcases Finset.mem_union.mp hxY with hxf | hxt
      · exact hnx (Finset.mem_filter.mp hxf).2
      · exact hnx (List.mem_toFinset.mp hxt)

/-- Witness for the corrected C3 theorem: the spec scenario replacing the
child set 1, 2, 3 of guild 1 with incoming ids 2, 3, 4. -/
theorem C3_full_set_amended_witness :
    (updateGuildEmojisUpdate s0C3w ⟨eListC3w, 1⟩).guildEmojis 1 =
      some (eListC3w.map Emoji.id).toFinset ∧
    (∀ e ∈ eListC3w,
      ((updateGuildEmojisUpdate s0C3w ⟨eListC3w, 1⟩).emojis e.id).isSome) ∧
    (∀ x ∈ ({1, 2, 3} : Finset EmojiId), x ∉ eListC3w.map Emoji.id →
      (updateGuildEmojisUpdate s0C3w ⟨eListC3w, 1⟩).emojis x = none ∧
      ∀ Y, (updateGuildEmojisUpdate s0C3w ⟨eListC3w, 1⟩).guildEmojis 1 = some Y →
        x ∉ Y) :=
  C3_full_set_amended s0C3w 1 eListC3w {1, 2, 3} (by decide) (by decide)
    (by
      intro e he c hc hd
      simp only [eListC3w, List.mem_cons, List.not_mem_nil, or_false] at he
      rcases he with rfl | rfl | rfl
      · decide
      · decide
      · have h4 : s0C3w.emojis (mkEmoji 4 "d").id = none := by decide
        rw [h4] at hc
        cases hc)

/-- C5 counterexample: the claim says applying an identical GuildEmojisUpdate
twice always leaves the state fixed after the first application.  With a
payload whose list repeats id 5 with two different values (e1C5 then e2C5)
and with the data of e1C5 already cached, the first application skips e1C5
by the equality guard (so its embedded user 7 is never cached) and then
overwrites the data with that of e2C5; in the second application the guard no
longer fires for e1C5, so user 7 suddenly gets cached: the second application
changes the state. -/
theorem C5_counterexample :
    (updateGuildEmojisUpdate s0C5 evC5).users 7 = none ∧
    (updateGuildEmojisUpdate (updateGuildEmojisUpdate s0C5 evC5) evC5).users 7 =
      some uC5 ∧
    updateGuildEmojisUpdate (updateGuildEmojisUpdate s0C5 evC5) evC5 ≠
      updateGuildEmojisUpdate s0C5 evC5 := by
  refine ⟨by decide, by decide, ?_⟩
  intro h
  have h1 : (updateGuildEmojisUpdate s0C5 evC5).users 7 = none := by decide
  have h2 : (updateGuildEmojisUpdate (updateGuildEmojisUpdate s0C5 evC5) evC5).users 7 =
      some uC5 := by decide
  rw [h, h1] at h2
  cases h2

/-- C5 corrected: the equality guard of cache_emoji makes an unchanged single
upsert a complete no-op, and for payloads whose emoji ids are pairwise
distinct (which well-formed full-set events are), applying the same
GuildEmojisUpdate twice yields the same state as applying it once. -/
theorem C5_idempotence_amended :
    (∀ (s : CacheState) (g : GuildId) (e : Emoji) (c : GuildItem CachedEmoji),
      s.emojis e.id = some c → c.data = e.toCached → cache_emoji s g e = s) ∧
    (∀ (s : CacheState) (ev : GuildEmojisUpdate), (ev.emojis.map Emoji.id).Nodup →
      updateGuildEmojisUpdate (updateGuildEmojisUpdate s ev) ev =
        updateGuildEmojisUpdate s ev) := by
  constructor
  · intro s g e c hc hd
    exact cache_emoji_of_eq g hc hd
  · intro s ev hnd
    by_cases hw : wants s ResourceType.EMOJI = true
    · have hupd : updateGuildEmojisUpdate s ev =
          cache_emojis s ev.guild_id ev.emojis := by
        show (if wants s ResourceType.EMOJI = true then
          cache_emojis s ev.guild_id ev.emojis else s) = _
        rw [if_pos hw]
      have hw1 : wants (cache_emojis s ev.guild_id ev.emojis)
          ResourceType.EMOJI = true := by
        unfold wants at hw ⊢
        rw [cache_emojis_resourceTypes]
        exact hw
      have hupd2 : updateGuildEmojisUpdate (cache_emojis s ev.guild_id ev.emojis) ev =
          cache_emojis (cache_emojis s ev.guild_id ev.emojis) ev.guild_id ev.emojis := by
        show (if wants (cache_emojis s ev.guild_id ev.emojis) ResourceType.EMOJI = true
          then cache_emojis (cache_emojis s ev.guild_id ev.emojis) ev.guild_id ev.emojis
          else cache_emojis s ev.guild_id ev.emojis) = _
        rw [if_pos hw1]
      rw [hupd, hupd2]
      exact cache_emojis_idem hnd
    · have hupd : updateGuildEmojisUpdate s ev = s := by
        show (if wants s ResourceType.EMOJI = true then
          cache_emojis s ev.guild_id ev.emojis else s) = _
        rw [if_neg hw]
      rw [hupd, hupd]

/-- Witness for the corrected C5 theorem: the guard no-op on a cached equal
emoji 9, and double application of a one-element update for guild 3. -/
theorem C5_idempotence_amended_witness :
    cache_emoji sC5w 4 (mkEmoji 9 "z") = sC5w ∧
    (([mkEmoji 6 "x"] : List Emoji).map Emoji.id).Nodup ∧
    updateGuildEmojisUpdate
        (updateGuildEmojisUpdate (emptyCache ResourceType.all) ⟨[mkEmoji 6 "x"], 3⟩)
        ⟨[mkEmoji 6 "x"], 3⟩ =
      updateGuildEmojisUpdate (emptyCache ResourceType.all) ⟨[mkEmoji 6 "x"], 3⟩ :=
  ⟨C5_idempotence_amended.1 sC5w 4 (mkEmoji 9 "z") ⟨(mkEmoji 9 "z").toCached, 4⟩
      (by decide) rfl,
    by decide,
    C5_idempotence_amended.2 (emptyCache ResourceType.all) ⟨[mkEmoji 6 "x"], 3⟩
      (by decide)⟩
